import Mathlib

/-!
Shallow embedding of `src/ai_agent_example.py`: an agentic tool-use loop that
calls a model backend, dispatches the tool invocations the model requests,
appends results to the conversation history and repeats until the backend
signals `end_turn`.  Pure tool helpers become Lean functions; the module-level
mutable note store is threaded as explicit state; the `while True:` loop is
embedded with an explicit fuel parameter (the source has no turn bound); the
external model client is a parameter `model : List Message → ModelResponse`.
-/

/-- A single-quote character, used to build the Python f-string messages that
contain quoted names (for example the `KeyError` text `Error: 'query'`). -/
def sglq : String := String.singleton (Char.ofNat 39)

/-- Python `str.lower` restricted to the per-character ASCII lowering; it agrees
with CPython on every ASCII string (theorems over arbitrary strings carry an
ASCII hypothesis where this matters). -/
def pyLower (s : String) : String := String.mk (s.toList.map Char.toLower)

/-- `leadsWith needle hay`: `hay` starts with `needle` (character lists). -/
def leadsWith : List Char → List Char → Bool
  | [], _ => true
  | _ :: _, [] => false
  | n :: ns, h :: hs => n == h && leadsWith ns hs

/-- Python substring containment `needle in hay` over character lists. -/
def containsSub (needle : List Char) : List Char → Bool
  | [] => needle.isEmpty
  | c :: rest => leadsWith needle (c :: rest) || containsSub needle rest

/-- The `mock_results` dict of `search_web` (insertion order preserved). -/
def mock_results : List (String × String) :=
  [("climate change",
    "Climate change refers to long-term shifts in global temperatures and weather patterns. " ++
    "Since the 1800s, human activities—primarily burning fossil fuels—have been the main driver. " ++
    "Key impacts include rising sea levels, more frequent extreme weather events, and ecosystem disruption."),
   ("python programming",
    "Python is a high-level, interpreted programming language known for its clear syntax and " ++
    "readability. Created by Guido van Rossum (1991). Widely used in web development, data science, " ++
    "AI/ML, automation, and scientific computing."),
   ("anthropic claude",
    "Anthropic is an AI safety company that develops Claude, a family of AI assistants. " ++
    "Claude is designed to be helpful, harmless, and honest. The latest models include " ++
    "Claude Opus 4.6, Sonnet 4.6, and Haiku 4.5.")]

/-- `search_web` (lines 20–43): first mock key that is a substring of the
lowercased query wins, else the fallback message. -/
def search_web (query : String) : String :=
  let query_lower := pyLower query
  match mock_results.find? (fun kv => containsSub kv.1.toList query_lower.toList) with
  | some kv => kv.2
  | none =>
    "Search results for " ++ sglq ++ query ++ sglq ++
    ": No specific results found. Try a more specific query."

/-- The in-memory note store: a Python dict `title ↦ content` as an
insertion-ordered association list. -/
abbrev NoteStore : Type := List (String × String)

/-- Python dict assignment `d[k] = v`: overwrite in place if the key exists
(position kept), otherwise append at the end. -/
def dictSet (store : NoteStore) (k v : String) : NoteStore :=
  if store.any (fun p => p.1 == k) then
    store.map (fun p => if p.1 == k then (k, v) else p)
  else store ++ [(k, v)]

/-- Python dict lookup `d[k]` as an `Option` (a `none` is the `KeyError`). -/
def dictGet (store : List (String × String)) (k : String) : Option String :=
  (store.find? (fun p => p.1 == k)).map (fun p => p.2)

/-- `take_note` (lines 61–64): stores the note and returns the confirmation
string; the mutation of the module-level `notes` dict is threaded as state. -/
def take_note (title content : String) (notes : NoteStore) : String × NoteStore :=
  ("Note " ++ sglq ++ title ++ sglq ++ " saved successfully.", dictSet notes title content)

/-- `list_notes` (lines 67–71): renders the store, read-only. -/
def list_notes (notes : NoteStore) : String :=
  if List.isEmpty notes then "No notes saved yet."
  else String.intercalate "\n"
    (notes.map (fun p => "- " ++ p.1 ++ ": " ++ p.2))

/-!
`calculate` (lines 46–58) gates the expression on an allow-listed character
set applied to `expression.lower()`, then evaluates it with Python `eval`
against a namespace of `math` members plus `abs`, converting any exception to
an error string.  CPython `eval` is external to the repository; it is modelled
below on the integer-arithmetic fragment of the gated grammar: integer
literals, `+ - * / **`, parentheses, unary sign and bare-name lookup.  A
`none` anywhere below means the input leaves that modelled fragment (float
literals and float-valued operations, function calls, tuples, syntax errors);
on such inputs the embedding asserts nothing rather than guessing.
-/

/-- Tokens of the modelled expression fragment. -/
inductive PyTok
  | intTok (n : Nat)
  | nameTok (s : String)
  | plusTok
  | minusTok
  | starTok
  | dstarTok
  | slashTok
  | lparTok
  | rparTok
deriving DecidableEq

/-- Decimal digits to a natural number. -/
def digitsVal (ds : List Char) : Nat :=
  ds.foldl (fun acc c => acc * 10 + (c.toNat - 48)) 0

/-- Fuelled tokenizer for the modelled fragment; `none` = outside it. -/
def pyTokenizeGo : Nat → List Char → Option (List PyTok)
  | 0, _ => none
  | _, [] => some []
  | fuel + 1, c :: cs =>
    if c == ' ' then pyTokenizeGo fuel cs
    else if c.isDigit then
      let digs := (c :: cs).takeWhile Char.isDigit
      let rest := (c :: cs).dropWhile Char.isDigit
      match rest with
      | '.' :: _ => none
      | _ => (pyTokenizeGo fuel rest).map (fun ts => .intTok (digitsVal digs) :: ts)
    else if c.isAlpha || c == '_' then
      let rest := (c :: cs).dropWhile (fun d => d.isAlphanum || d == '_')
      let ident := (c :: cs).takeWhile (fun d => d.isAlphanum || d == '_')
      (pyTokenizeGo fuel rest).map (fun ts => .nameTok (String.mk ident) :: ts)
    else if c == '*' then
      match cs with
      | '*' :: cs2 => (pyTokenizeGo fuel cs2).map (fun ts => .dstarTok :: ts)
      | _ => (pyTokenizeGo fuel cs).map (fun ts => .starTok :: ts)
    else if c == '+' then (pyTokenizeGo fuel cs).map (fun ts => .plusTok :: ts)
    else if c == '-' then (pyTokenizeGo fuel cs).map (fun ts => .minusTok :: ts)
    else if c == '/' then (pyTokenizeGo fuel cs).map (fun ts => .slashTok :: ts)
    else if c == '(' then (pyTokenizeGo fuel cs).map (fun ts => .lparTok :: ts)
    else if c == ')' then (pyTokenizeGo fuel cs).map (fun ts => .rparTok :: ts)
    else none

/-- Tokenize a gated expression (each step consumes at least one character,
so `length + 1` fuel is exact). -/
def pyTokenize (s : String) : Option (List PyTok) :=
  pyTokenizeGo (s.length + 1) s.toList

/-- Abstract syntax of the modelled fragment. -/
inductive PyAst
  | num (n : Nat)
  | nameRef (s : String)
  | neg (a : PyAst)
  | pos (a : PyAst)
  | add (a b : PyAst)
  | sub (a b : PyAst)
  | mul (a b : PyAst)
  | div (a b : PyAst)
  | pow (a b : PyAst)
deriving DecidableEq

/-- Parser mode: a precedence level, a unary/atom position, or the operator
chain continuing a parsed left operand. -/
inductive ParseMode
  | level (minPrec : Nat)
  | unary
  | chain (minPrec : Nat) (lhs : PyAst)

/-- Fuelled precedence-climbing parser matching Python operator precedence:
`**` (4, right-associative, binding tighter than a unary sign on its left but
accepting one on its right), unary sign (3), `* /` (2), `+ -` (1).  A name
followed by `(` is a function call, which leaves the modelled fragment. -/
def parseGo : Nat → ParseMode → List PyTok → Option (PyAst × List PyTok)
  | 0, _, _ => none
  | fuel + 1, .level minPrec, toks =>
    match parseGo fuel .unary toks with
    | some (lhs, rest) => parseGo fuel (.chain minPrec lhs) rest
    | none => none
  | fuel + 1, .unary, toks =>
    match toks with
    | .minusTok :: rest => (parseGo fuel (.level 3) rest).map (fun pr => (.neg pr.1, pr.2))
    | .plusTok :: rest => (parseGo fuel (.level 3) rest).map (fun pr => (.pos pr.1, pr.2))
    | .intTok n :: rest => some (.num n, rest)
    | .nameTok _ :: .lparTok :: _ => none
    | .nameTok s :: rest => some (.nameRef s, rest)
    | .lparTok :: rest =>
      match parseGo fuel (.level 1) rest with
      | some (e, .rparTok :: r2) => some (e, r2)
      | _ => none
    | _ => none
  | fuel + 1, .chain minPrec lhs, toks =>
    match toks with
    | .dstarTok :: rest =>
      if minPrec ≤ 4 then
        match parseGo fuel (.level 4) rest with
        | some (rhs, r2) => parseGo fuel (.chain minPrec (.pow lhs rhs)) r2
        | none => none
      else some (lhs, toks)
    | .starTok :: rest =>
      if minPrec ≤ 2 then
        match parseGo fuel (.level 3) rest with
        | some (rhs, r2) => parseGo fuel (.chain minPrec (.mul lhs rhs)) r2
        | none => none
      else some (lhs, toks)
    | .slashTok :: rest =>
      if minPrec ≤ 2 then
        match parseGo fuel (.level 3) rest with
        | some (rhs, r2) => parseGo fuel (.chain minPrec (.div lhs rhs)) r2
        | none => none
      else some (lhs, toks)
    | .plusTok :: rest =>
      if minPrec ≤ 1 then
        match parseGo fuel (.level 2) rest with
        | some (rhs, r2) => parseGo fuel (.chain minPrec (.add lhs rhs)) r2
        | none => none
      else some (lhs, toks)
    | .minusTok :: rest =>
      if minPrec ≤ 1 then
        match parseGo fuel (.level 2) rest with
        | some (rhs, r2) => parseGo fuel (.chain minPrec (.sub lhs rhs)) r2
        | none => none
      else some (lhs, toks)
    | _ => some (lhs, toks)

/-- Parse a whole token list (leftover tokens are a syntax error, i.e. outside
the modelled fragment). -/
def pyParse (toks : List PyTok) : Option PyAst :=
  match parseGo (4 * toks.length + 8) (.level 1) toks with
  | some (e, []) => some e
  | _ => none

/-- The names bound in `safe_env`: the public members of CPython 3.12 `math`
plus `abs` (line 53–54).  All of their values are floats or callables, so
evaluating one leaves the integer fragment; only membership matters here. -/
def envNames : List String :=
  ["acos", "acosh", "asin", "asinh", "atan", "atan2", "atanh", "cbrt", "ceil",
   "comb", "copysign", "cos", "cosh", "degrees", "dist", "e", "erf", "erfc",
   "exp", "exp2", "expm1", "fabs", "factorial", "floor", "fmod", "frexp",
   "fsum", "gamma", "gcd", "hypot", "inf", "isclose", "isfinite", "isinf",
   "isnan", "isqrt", "lcm", "ldexp", "lgamma", "log", "log10", "log1p",
   "log2", "modf", "nan", "nextafter", "perm", "pi", "pow", "prod",
   "radians", "remainder", "sin", "sinh", "sqrt", "sumprod", "tan", "tanh",
   "tau", "trunc", "ulp", "abs"]

/-- Combine two evaluated operands Python-style: left operand first, a raised
`NameError` propagates, `none` (outside the fragment) is sticky. -/
def evalBin (f : Int → Int → Option Int) :
    Option (Except String Int) → Option (Except String Int) → Option (Except String Int)
  | some (.ok x), some (.ok y) => (f x y).map Except.ok
  | some (.error e), _ => some (.error e)
  | some (.ok _), some (.error e) => some (.error e)
  | _, _ => none

/-- Evaluate the modelled fragment: `Except.error s` is Python
`NameError: name 's' is not defined`; true division and a negative exponent
produce floats and so leave the fragment (`none`). -/
def evalAst : PyAst → Option (Except String Int)
  | .num n => some (.ok (n : Int))
  | .nameRef s => if envNames.contains s then none else some (.error s)
  | .neg a =>
    match evalAst a with
    | some (.ok n) => some (.ok (-n))
    | other => other
  | .pos a => evalAst a
  | .add a b => evalBin (fun x y => some (x + y)) (evalAst a) (evalAst b)
  | .sub a b => evalBin (fun x y => some (x - y)) (evalAst a) (evalAst b)
  | .mul a b => evalBin (fun x y => some (x * y)) (evalAst a) (evalAst b)
  | .div a b => evalBin (fun _ _ => none) (evalAst a) (evalAst b)
  | .pow a b => evalBin (fun x y => if y < 0 then none else some (x ^ y.toNat)) (evalAst a) (evalAst b)

/-- The character allow-list of `calculate` (line 48). -/
def allowedChars : List Char :=
  "0123456789+-*/()., abcdefghijklmnopqrstuvwxyz_".toList

/-- The rejection message of `calculate` (line 50). -/
def invalidCharsMsg : String := "Error: Expression contains invalid characters."

/-- The message `calculate` produces when `eval` raises `NameError` (line 58,
`f"Error evaluating expression: {exc}"`). -/
def evalErrMsg (nm : String) : String :=
  "Error evaluating expression: name " ++ sglq ++ nm ++ sglq ++ " is not defined"

/-- `calculate` (lines 46–58): gate on the allow-list applied to
`expression.lower()`, then evaluate; exceptions become error strings.  The
result is `none` exactly when the input passes the gate but leaves the
modelled fragment of CPython `eval`. -/
def calculate (expression : String) : Option String :=
  if !((pyLower expression).toList.all (fun c => allowedChars.contains c)) then
    some invalidCharsMsg
  else
    match pyTokenize expression with
    | none => none
    | some toks =>
      match pyParse toks with
      | none => none
      | some ast =>
        match evalAst ast with
        | none => none
        | some (.ok n) => some (toString n)
        | some (.error nm) => some (evalErrMsg nm)

/-!
The conversation model and the agentic loop `run_agent` (lines 137–197).
-/

/-- The input object of a tool invocation: a JSON object with string fields,
as an insertion-ordered association list. -/
abbrev ToolInput : Type := List (String × String)

/-- A content block of a message: the duck-typed response blocks
(`thinking` / `text` / `tool_use`) and the `tool_result` dict the loop builds
(lines 187–191).  The source constructs that dict without an `is_error` key,
so the optional wire field is carried as `Option Bool` and is `none` there. -/
inductive ContentBlock
  | thinking (text : String)
  | text (text : String)
  | toolUse (id name : String) (input : ToolInput)
  | toolResult (tool_use_id : String) (content : String) (is_error : Option Bool)
deriving DecidableEq

/-- `block.type == "tool_use"` (line 174). -/
def isToolUseBlock : ContentBlock → Bool
  | .toolUse _ _ _ => true
  | _ => false

/-- `[b for b in response.content if b.type == "tool_use"]` (line 174). -/
def toolUseBlocks (bs : List ContentBlock) : List ContentBlock :=
  bs.filter isToolUseBlock

/-- `next((b.text for b in response.content if b.type == "text"), …)`
(lines 167–170) without its default. -/
def firstTextBlock (bs : List ContentBlock) : Option String :=
  bs.findSome? (fun b => match b with | .text t => some t | _ => none)

/-- The `id` fields of the `tool_use` blocks, in order. -/
def useIds (bs : List ContentBlock) : List String :=
  bs.filterMap (fun b => match b with | .toolUse i _ _ => some i | _ => none)

/-- The `tool_use_id` fields of the `tool_result` blocks, in order. -/
def resultIds (bs : List ContentBlock) : List String :=
  bs.filterMap (fun b => match b with | .toolResult i _ _ => some i | _ => none)

/-- The `is_error` field of a `tool_result` block. -/
def resultIsError : ContentBlock → Option Bool
  | .toolResult _ _ e => e
  | _ => none

/-- The content of a message dict: the seed user turn carries a plain string
(line 142), the appended turns carry block lists (lines 194–195). -/
inductive MessageContent
  | ofText (s : String)
  | ofBlocks (bs : List ContentBlock)
deriving DecidableEq

/-- One entry of the `messages` list. -/
structure Message where
  role : String
  content : MessageContent
deriving DecidableEq

/-- A fully assembled model turn as returned by `stream.get_final_message()`:
content blocks plus a stop reason string. -/
structure ModelResponse where
  content : List ContentBlock
  stop_reason : String

/-- The names registered in `TOOL_FUNCTIONS` (lines 128–133). -/
def registeredTools : List String :=
  ["search_web", "calculate", "take_note", "list_notes"]

/-- `KeyError` as caught at line 184: `f"Error: {exc}"` where `str(exc)` is
the quoted missing key. -/
def keyErrorMsg (k : String) : String := "Error: " ++ sglq ++ k ++ sglq

/-- One guarded dispatch, `TOOL_FUNCTIONS[tool_use.name](tool_use.input)`
wrapped in `try/except Exception` (lines 182–185): an unknown tool name or a
missing input key raises `KeyError`, caught and turned into `Error: '…'`;
the lambdas read their input keys left to right.  `none` only when a
`calculate` call leaves the modelled fragment of CPython `eval`. -/
def callTool (notes : NoteStore) (name : String) (input : ToolInput) :
    Option (String × NoteStore) :=
  if name = "search_web" then
    match dictGet input "query" with
    | some q => some (search_web q, notes)
    | none => some (keyErrorMsg "query", notes)
  else if name = "calculate" then
    match dictGet input "expression" with
    | some e => (calculate e).map (fun r => (r, notes))
    | none => some (keyErrorMsg "expression", notes)
  else if name = "take_note" then
    match dictGet input "title" with
    | none => some (keyErrorMsg "title", notes)
    | some t =>
      match dictGet input "content" with
      | none => some (keyErrorMsg "content", notes)
      | some c => some (take_note t c notes)
  else if name = "list_notes" then some (list_notes notes, notes)
  else some (keyErrorMsg name, notes)

/-- The result-collection loop (lines 179–191): one `tool_result` block per
invocation, in invocation order, each carrying the invocation id and the
result string, with no `is_error` key; the note store threads through.  It is
only ever applied to the `tool_use` filter of a response, so the non-`toolUse`
case (which would be an uncaught `AttributeError` at line 189) is vacuous and
produces no result. -/
def dispatchBatch (notes : NoteStore) : List ContentBlock → Option (List ContentBlock × NoteStore)
  | [] => some ([], notes)
  | .toolUse id name input :: rest =>
    match callTool notes name input with
    | none => none
    | some (result, notes2) =>
      (dispatchBatch notes2 rest).map (fun pr => (.toolResult id result none :: pr.1, pr.2))
  | _ :: rest => dispatchBatch notes rest

/-- Why the loop stopped: the `end_turn` return (line 171), the guard `break`
for a tool-use response with no `tool_use` blocks (lines 176–177, 197), or
fuel exhaustion — the embedding artifact standing for the truly unbounded
`while True:`; the source has no max-turns guard, so a run that keeps
requesting tools never produces a result. -/
inductive RunExit
  | modelDone
  | noToolCallsProduced
  | outOfFuel
deriving DecidableEq

/-- The observable outcome of a run: the returned string, which exit path
produced it, the final `messages` list and note store, and how many model
calls and tool dispatches happened (instrumentation of the run's state). -/
structure RunOutcome where
  final_text : String
  terminated_reason : RunExit
  messages : List Message
  notes : NoteStore
  modelCalls : Nat
  toolCalls : Nat
deriving DecidableEq

/-- The `while True:` body of `run_agent` (lines 147–195), with explicit fuel.
Each iteration calls the model once; on `end_turn` it returns the first text
block (or the placeholder); a tool-use response with no `tool_use` blocks
breaks out; otherwise all invocations are dispatched, the assistant turn is
appended verbatim followed by one `user` turn holding the whole result batch,
and the loop repeats on the grown history. -/
def runLoop (model : List Message → ModelResponse) :
    Nat → List Message → NoteStore → Option RunOutcome
  | 0, messages, notes => some ⟨"", .outOfFuel, messages, notes, 0, 0⟩
  | fuel + 1, messages, notes =>
    let response := model messages
    if response.stop_reason = "end_turn" then
      some ⟨(firstTextBlock response.content).getD "(no text response)",
            .modelDone, messages, notes, 1, 0⟩
    else
      let tub := toolUseBlocks response.content
      if tub.isEmpty then
        some ⟨"(agent loop ended without final response)",
              .noToolCallsProduced, messages, notes, 1, 0⟩
      else
        match dispatchBatch notes tub with
        | none => none
        | some (results, notes2) =>
          let messages2 := messages ++
            [⟨"assistant", .ofBlocks response.content⟩, ⟨"user", .ofBlocks results⟩]
          (runLoop model fuel messages2 notes2).map (fun o =>
            { o with modelCalls := o.modelCalls + 1, toolCalls := o.toolCalls + tub.length })

/-- The seed history `[{"role": "user", "content": user_prompt}]` (line 142). -/
def seedMessages (user_prompt : String) : List Message :=
  [⟨"user", .ofText user_prompt⟩]

/-- `run_agent` (lines 137–197): seed the history and run the loop.  The model
client and the module-level note store are the run's external collaborators,
passed explicitly; `fuel` bounds the embedding of the unbounded loop. -/
def run_agent (model : List Message → ModelResponse) (user_prompt : String)
    (notes : NoteStore) (fuel : Nat) : Option RunOutcome :=
  runLoop model fuel (seedMessages user_prompt) notes

/-- The final history of a run, empty when the run leaves the modelled
fragment. -/
def historyOf : Option RunOutcome → List Message
  | some o => o.messages
  | none => []

/-!
The correlation invariant over histories, and the concrete model stubs used
to exercise the loop.
-/

/-- Recognize a tool-result batch turn: the loop's batches are exactly the
`user`-role turns whose content is a block list (the seed user turn carries a
plain string instead). -/
def isToolResultBatch (m : Message) : Bool :=
  m.role == "user" &&
    (match m.content with | .ofBlocks _ => true | .ofText _ => false)

/-- The invocation ids of a turn (empty for a string-content turn). -/
def msgUseIds (m : Message) : List String :=
  match m.content with | .ofBlocks bs => useIds bs | .ofText _ => []

/-- The result ids of a turn (empty for a string-content turn). -/
def msgResultIds (m : Message) : List String :=
  match m.content with | .ofBlocks bs => resultIds bs | .ofText _ => []

/-- The correlation condition between one turn and its predecessor: a batch
turn must follow an assistant turn, and its result ids must equal, in order,
that turn's invocation ids (exact list equality — stronger than the multiset
equality the invariant asks for, hence implying it). -/
def corrStep (prev m : Message) : Bool :=
  !isToolResultBatch m ||
    (prev.role == "assistant" && msgResultIds m == msgUseIds prev)

/-- `corrStep` down a history, threading the predecessor. -/
def corrChain : Message → List Message → Bool
  | _, [] => true
  | prev, m :: rest => corrStep prev m && corrChain m rest

/-- The correlation invariant of a whole history: no leading batch turn, and
every batch turn correlates with the assistant turn immediately before it. -/
def corrOK : List Message → Bool
  | [] => true
  | m :: rest => !isToolResultBatch m && corrChain m rest

/-- The final history of a partial run started from an arbitrary history,
unchanged when the run leaves the modelled fragment. -/
def appendedHistory (model : List Message → ModelResponse) (fuel : Nat)
    (msgs : List Message) (notes : NoteStore) : List Message :=
  match runLoop model fuel msgs notes with
  | some o => o.messages
  | none => msgs

/-- A backend stub that finishes immediately with a text answer. -/
def endTurnStub : List Message → ModelResponse := fun _ => ⟨[.text "hi"], "end_turn"⟩

/-- A backend stub that finishes immediately without any text block. -/
def thinkingOnlyStub : List Message → ModelResponse := fun _ =>
  ⟨[.thinking "hmm"], "end_turn"⟩

/-- A backend stub that claims tool use but supplies no invocation blocks
(the protocol violation the guard at lines 175–177 defends against). -/
def protocolViolationStub : List Message → ModelResponse := fun _ =>
  ⟨[.text "claiming tool use"], "tool_use"⟩

/-- A backend stub that invokes a tool name absent from the registry. -/
def unknownToolStub : List Message → ModelResponse := fun _ =>
  ⟨[.toolUse "tu_9" "magic_wand" []], "tool_use"⟩

/-- A backend stub that requests the same tool call on every round, never
ending the turn — the worst case for a loop with no turn bound. -/
def alwaysToolUseStub : List Message → ModelResponse := fun _ =>
  ⟨[.toolUse "tu_1" "search_web" [("query", "x")]], "tool_use"⟩

/-- The three-invocation assistant turn of the multi-tool batching scenario. -/
def c6blocks : List ContentBlock :=
  [.toolUse "tu_1" "search_web" [("query", "climate change")],
   .toolUse "tu_2" "calculate" [("expression", "2**10")],
   .toolUse "tu_3" "take_note" [("title", "t"), ("content", "c")]]

/-- The result batch those three invocations produce from an empty store. -/
def c6results : List ContentBlock :=
  [.toolResult "tu_1" (search_web "climate change") none,
   .toolResult "tu_2" "1024" none,
   .toolResult "tu_3" (take_note "t" "c" []).1 none]

/-- A backend stub returning the three-invocation turn on the first call and
`end_turn` with text afterwards. -/
def batchStub : List Message → ModelResponse := fun msgs =>
  if msgs.length = 1 then ⟨c6blocks, "tool_use"⟩ else ⟨[.text "done"], "end_turn"⟩

/-!
Helper lemmas.
-/

/-- Filtering for `tool_use` blocks leaves the invocation ids unchanged. -/
theorem useIds_toolUseBlocks (bs : List ContentBlock) :
    useIds (toolUseBlocks bs) = useIds bs := by
  induction bs with
  | nil => rfl
  | cons b rest ih =>
    cases b <;> simp [toolUseBlocks, isToolUseBlock, useIds, List.filter_cons] at ih ⊢ <;>
      simpa [useIds] using ih

/-- The `tool_use` filter is idempotent. -/
theorem toolUseBlocks_idem (bs : List ContentBlock) :
    toolUseBlocks (toolUseBlocks bs) = toolUseBlocks bs := by
  induction bs with
  | nil => rfl
  | cons b rest ih =>
    cases b <;> simp [toolUseBlocks, isToolUseBlock, List.filter_cons] at ih ⊢ <;> exact ih

/-- A successful dispatch yields one result per invocation, in invocation
order, with matching ids. -/
theorem dispatchBatch_ids :
    ∀ (bs : List ContentBlock) (notes : NoteStore) (results : List ContentBlock)
      (notes2 : NoteStore), dispatchBatch notes bs = some (results, notes2) →
      resultIds results = useIds bs ∧ results.length = (toolUseBlocks bs).length := by
  intro bs
  induction bs with
  | nil =>
    intro notes results notes2 h
    simp [dispatchBatch] at h
    obtain ⟨h1, h2⟩ := h
    subst h1
    exact ⟨rfl, rfl⟩
  | cons b rest ih =>
    intro notes results notes2 h
    cases b with
    | toolUse id name input =>
      simp only [dispatchBatch] at h
      cases hct : callTool notes name input with
      | none => simp [hct] at h
      | some pr =>
        obtain ⟨result, n2⟩ := pr
        rw [hct] at h
        dsimp only at h
        cases hdb : dispatchBatch n2 rest with
        | none => simp [hdb] at h
        | some pr2 =>
          obtain ⟨rs, n3⟩ := pr2
          rw [hdb] at h
          simp at h
          obtain ⟨hr, hn⟩ := h
          obtain ⟨ih1, ih2⟩ := ih n2 rs n3 hdb
          subst hr
          constructor
          · show id :: resultIds rs = id :: useIds rest
            rw [ih1]
          · show rs.length + 1 = (toolUseBlocks rest).length + 1
            omega
    | thinking t => exact ih notes results notes2 h
    | text t => exact ih notes results notes2 h
    | toolResult i c e => exact ih notes results notes2 h

/-- Appending an assistant turn and a correlating batch preserves the chain. -/
theorem corrChain_append_two (a b : Message)
    (ha : isToolResultBatch a = false) (hb : corrStep a b = true) :
    ∀ (xs : List Message) (prev : Message), corrChain prev xs = true →
      corrChain prev (xs ++ [a, b]) = true := by
  have hpa : ∀ p : Message, corrStep p a = true := fun p => by simp [corrStep, ha]
  intro xs
  induction xs with
  | nil =>
    intro prev _
    simp [corrChain, hpa prev, hb]
  | cons x rest ih =>
    intro prev h
    simp only [corrChain, Bool.and_eq_true] at h
    simp only [List.cons_append, corrChain, Bool.and_eq_true]
    exact ⟨h.1, ih x h.2⟩

/-- Appending an assistant turn and a correlating batch preserves the
invariant. -/
theorem corrOK_append_two (msgs : List Message) (a b : Message)
    (ha : isToolResultBatch a = false) (hb : corrStep a b = true)
    (h : corrOK msgs = true) : corrOK (msgs ++ [a, b]) = true := by
  cases msgs with
  | nil => simp [corrOK, corrChain, ha, hb]
  | cons m rest =>
    simp only [corrOK, Bool.and_eq_true] at h
    simp only [List.cons_append, corrOK, Bool.and_eq_true]
    exact ⟨h.1, corrChain_append_two a b ha hb rest m h.2⟩

/-- Bumping the counters of an outcome does not change its history. -/
theorem historyOf_counterMap (x : Option RunOutcome) (a b : Nat) :
    historyOf (x.map (fun o =>
      { o with modelCalls := o.modelCalls + a, toolCalls := o.toolCalls + b })) =
    historyOf x := by
  cases x <;> rfl

/-- The loop preserves the correlation invariant from any starting history. -/
theorem corr_loop (model : List Message → ModelResponse) :
    ∀ (fuel : Nat) (msgs : List Message) (notes : NoteStore),
      corrOK msgs = true → corrOK (historyOf (runLoop model fuel msgs notes)) = true := by
  intro fuel
  induction fuel with
  | zero => intro msgs notes h; simpa [runLoop, historyOf] using h
  | succ fuel ih =>
    intro msgs notes h
    by_cases hstop : (model msgs).stop_reason = "end_turn"
    · simpa [runLoop, hstop, historyOf] using h
    · by_cases htub : (toolUseBlocks (model msgs).content).isEmpty
      · simpa [runLoop, hstop, htub, historyOf] using h
      · cases hdb : dispatchBatch notes (toolUseBlocks (model msgs).content) with
        | none => simp [runLoop, hstop, htub, hdb, historyOf, corrOK]
        | some pr =>
          obtain ⟨results, notes2⟩ := pr
          have hids := dispatchBatch_ids _ notes results notes2 hdb
          have hstep : corrStep ⟨"assistant", .ofBlocks (model msgs).content⟩
              ⟨"user", .ofBlocks results⟩ = true := by
            simp [corrStep, isToolResultBatch, msgResultIds, msgUseIds, hids.1,
              useIds_toolUseBlocks]
          have h2 : corrOK (msgs ++
              [⟨"assistant", .ofBlocks (model msgs).content⟩,
               ⟨"user", .ofBlocks results⟩]) = true :=
            corrOK_append_two msgs _ _ (by simp [isToolResultBatch]) hstep h
          have h3 := ih _ notes2 h2
          simp only [runLoop, hstop, if_false, htub, hdb]
          simpa [historyOf_counterMap] using h3

/-- Whatever history the loop starts from is a prefix of the history it ends
with: turns are only ever appended. -/
theorem appendOnly_loop (model : List Message → ModelResponse) :
    ∀ (fuel : Nat) (msgs : List Message) (notes : NoteStore),
      msgs <+: appendedHistory model fuel msgs notes := by
  intro fuel
  induction fuel with
  | zero => intro msgs notes; exact ⟨[], by simp [appendedHistory, runLoop]⟩
  | succ fuel ih =>
    intro msgs notes
    by_cases hstop : (model msgs).stop_reason = "end_turn"
    · exact ⟨[], by simp [appendedHistory, runLoop, hstop]⟩
    · by_cases htub : (toolUseBlocks (model msgs).content).isEmpty
      · exact ⟨[], by simp [appendedHistory, runLoop, hstop, htub]⟩
      · cases hdb : dispatchBatch notes (toolUseBlocks (model msgs).content) with
        | none => exact ⟨[], by simp [appendedHistory, runLoop, hstop, htub, hdb]⟩
        | some pr =>
          obtain ⟨results, notes2⟩ := pr
          have hpre : msgs <+: msgs ++
              [⟨"assistant", .ofBlocks (model msgs).content⟩,
               ⟨"user", .ofBlocks results⟩] := ⟨_, rfl⟩
          have ih2 := ih (msgs ++
              [⟨"assistant", .ofBlocks (model msgs).content⟩,
               ⟨"user", .ofBlocks results⟩]) notes2
          cases hrl : runLoop model fuel (msgs ++
              [⟨"assistant", .ofBlocks (model msgs).content⟩,
               ⟨"user", .ofBlocks results⟩]) notes2 with
          | none =>
            have : appendedHistory model (fuel + 1) msgs notes = msgs := by
              simp [appendedHistory, runLoop, hstop, htub, hdb, hrl]
            rw [this]
          | some o =>
            have heq : appendedHistory model (fuel + 1) msgs notes = o.messages := by
              simp [appendedHistory, runLoop, hstop, htub, hdb, hrl]
            rw [heq]
            have : appendedHistory model fuel (msgs ++
                [⟨"assistant", .ofBlocks (model msgs).content⟩,
                 ⟨"user", .ofBlocks results⟩]) notes2 = o.messages := by
              simp [appendedHistory, hrl]
            rw [this] at ih2
            exact hpre.trans ih2

/-- With a backend that requests a tool call on every round, the run consumes
all its fuel: one model call per fuel unit and no terminal state — the
unbounded `while True:` made visible. -/
theorem alwaysToolUse_consumesAllFuel :
    ∀ (fuel : Nat) (msgs : List Message) (notes : NoteStore),
      (runLoop alwaysToolUseStub fuel msgs notes).map
        (fun o => (o.terminated_reason, o.modelCalls)) =
      some (.outOfFuel, fuel) := by
  intro fuel
  induction fuel with
  | zero => intro msgs notes; rfl
  | succ fuel ih =>
    intro msgs notes
    have hd : dispatchBatch notes
        [(.toolUse "tu_1" "search_web" [("query", "x")] : ContentBlock)] =
        some ([.toolResult "tu_1" (search_web "x") none], notes) := rfl
    have ih2 := ih (msgs ++
        [⟨"assistant", .ofBlocks [.toolUse "tu_1" "search_web" [("query", "x")]]⟩,
         ⟨"user", .ofBlocks [.toolResult "tu_1" (search_web "x") none]⟩]) notes
    cases hrl : runLoop alwaysToolUseStub fuel (msgs ++
        [⟨"assistant", .ofBlocks [.toolUse "tu_1" "search_web" [("query", "x")]]⟩,
         ⟨"user", .ofBlocks [.toolResult "tu_1" (search_web "x") none]⟩]) notes with
    | none => rw [hrl] at ih2; simp at ih2
    | some o =>
      rw [hrl] at ih2
      simp at ih2
      simp [runLoop, alwaysToolUseStub, hd, hrl, toolUseBlocks, isToolUseBlock, ih2.1, ih2.2]

/-!
Claim theorems.
-/

/-- C1 — Correlation invariant: in every run, every tool-result batch turn in
the final history immediately follows an assistant turn and its
`tool_use_id`s equal, as an ordered list (hence as a multiset: no missing, no
extra, no duplicate results beyond duplicated invocations), the ids of that
turn's `tool_use` blocks. -/
theorem correlation_invariant (model : List Message → ModelResponse)
    (user_prompt : String) (notes : NoteStore) (fuel : Nat) :
    corrOK (historyOf (run_agent model user_prompt notes fuel)) = true := by
  apply corr_loop
  simp [seedMessages, corrOK, corrChain, isToolResultBatch]

/-- C8 — Append-only history: the history a run step starts from is always a
prefix of the history it ends with, and each append of an assistant turn and
its batch extends the history to a strictly longer one; no turn is mutated or
removed. -/
theorem append_only_history :
    (∀ (model : List Message → ModelResponse) (fuel : Nat) (msgs : List Message)
        (notes : NoteStore), msgs <+: appendedHistory model fuel msgs notes) ∧
    (∀ (msgs : List Message) (a b : Message),
        msgs <+: msgs ++ [a, b] ∧ msgs ≠ msgs ++ [a, b]) := by
  constructor
  · intro model fuel msgs notes
    exact appendOnly_loop model fuel msgs notes
  · intro msgs a b
    exact ⟨⟨[a, b], rfl⟩, by simp⟩

/-- C3 — No-tool-calls guard: a model response that does not end the turn yet
contains no `tool_use` block makes the loop stop after that single model
call, reporting the no-tool-calls exit with the sentinel text, the history
and store untouched. -/
theorem no_tool_calls_guard (model : List Message → ModelResponse)
    (msgs : List Message) (notes : NoteStore) (fuel : Nat)
    (hstop : (model msgs).stop_reason ≠ "end_turn")
    (hnone : toolUseBlocks (model msgs).content = []) :
    runLoop model (fuel + 1) msgs notes =
      some ⟨"(agent loop ended without final response)", .noToolCallsProduced,
            msgs, notes, 1, 0⟩ := by
  simp [runLoop, hstop, hnone]

/-- Witness for C3 at a concrete backend stub. -/
theorem no_tool_calls_guard_witness :
    ((protocolViolationStub (seedMessages "q")).stop_reason ≠ "end_turn") ∧
    (toolUseBlocks (protocolViolationStub (seedMessages "q")).content = []) ∧
    runLoop protocolViolationStub 1 (seedMessages "q") [] =
      some ⟨"(agent loop ended without final response)", .noToolCallsProduced,
            seedMessages "q", [], 1, 0⟩ :=
  ⟨by decide, rfl,
    no_tool_calls_guard protocolViolationStub (seedMessages "q") [] 0 (by decide) rfl⟩

/-- C5 — EndTurn termination: when the backend returns `end_turn` on the
first call, the run finishes after exactly one model call, dispatches no
tool, leaves the history at the seed turn, and returns the text of the first
`text` block of that response. -/
theorem end_turn_single_round (model : List Message → ModelResponse)
    (user_prompt : String) (notes : NoteStore) (fuel : Nat) (t : String)
    (hstop : (model (seedMessages user_prompt)).stop_reason = "end_turn")
    (htext : firstTextBlock (model (seedMessages user_prompt)).content = some t) :
    run_agent model user_prompt notes (fuel + 1) =
      some ⟨t, .modelDone, seedMessages user_prompt, notes, 1, 0⟩ := by
  simp [run_agent, runLoop, hstop, htext]

/-- Witness for C5 at a concrete backend stub. -/
theorem end_turn_single_round_witness :
    ((endTurnStub (seedMessages "q")).stop_reason = "end_turn") ∧
    (firstTextBlock (endTurnStub (seedMessages "q")).content = some "hi") ∧
    run_agent endTurnStub "q" [] 1 =
      some ⟨"hi", .modelDone, seedMessages "q", [], 1, 0⟩ :=
  ⟨rfl, rfl, end_turn_single_round endTurnStub "q" [] 0 "hi" rfl rfl⟩

/-- C10 — No-text fallback: an `end_turn` response containing no `text` block
makes the run return the fixed placeholder `(no text response)` rather than
fail. -/
theorem no_text_fallback (model : List Message → ModelResponse)
    (msgs : List Message) (notes : NoteStore) (fuel : Nat)
    (hstop : (model msgs).stop_reason = "end_turn")
    (htext : firstTextBlock (model msgs).content = none) :
    runLoop model (fuel + 1) msgs notes =
      some ⟨"(no text response)", .modelDone, msgs, notes, 1, 0⟩ := by
  simp [runLoop, hstop, htext]

/-- Witness for C10 at a concrete backend stub. -/
theorem no_text_fallback_witness :
    ((thinkingOnlyStub (seedMessages "q")).stop_reason = "end_turn") ∧
    (firstTextBlock (thinkingOnlyStub (seedMessages "q")).content = none) ∧
    runLoop thinkingOnlyStub 1 (seedMessages "q") [] =
      some ⟨"(no text response)", .modelDone, seedMessages "q", [], 1, 0⟩ :=
  ⟨rfl, rfl, no_text_fallback thinkingOnlyStub (seedMessages "q") [] 0 rfl rfl⟩

/-- C9 — Idempotence of `list_notes`: dispatching `list_notes` leaves the
store unchanged and returns a function of the store alone, so two successive
dispatches with no intervening `take_note` return the identical string. -/
theorem list_notes_idempotent (notes : NoteStore) (i1 i2 : ToolInput) :
    ∃ (o : String) (n1 : NoteStore),
      callTool notes "list_notes" i1 = some (o, n1) ∧
      callTool n1 "list_notes" i2 = some (o, n1) ∧
      n1 = notes ∧ o = list_notes notes :=
  ⟨list_notes notes, notes, rfl, rfl, rfl, rfl⟩

/-- C4 — Max-turns bound (violated by the source): against a backend that
requests a tool call on every round, the loop performs exactly one model call
per unit of fuel and never reaches a terminal state — the model-call count
grows beyond every bound, and no `MaxTurnsExceeded`-style abort exists in the
code (`RunExit` has no such exit because `run_agent` has no such path). -/
theorem max_turns_unbounded :
    (∀ fuel : Nat,
      (run_agent alwaysToolUseStub "task" [] fuel).map
          (fun o => (o.terminated_reason, o.modelCalls)) =
        some (.outOfFuel, fuel)) ∧
    (∀ bound : Nat, ∃ (fuel : Nat) (o : RunOutcome),
      run_agent alwaysToolUseStub "task" [] fuel = some o ∧ bound < o.modelCalls) := by
  constructor
  · intro fuel
    exact alwaysToolUse_consumesAllFuel fuel _ _
  · intro bound
    have h := alwaysToolUse_consumesAllFuel (bound + 1) (seedMessages "task") []
    cases hrl : runLoop alwaysToolUseStub (bound + 1) (seedMessages "task") [] with
    | none => rw [hrl] at h; simp at h
    | some o =>
      rw [hrl] at h
      simp at h
      exact ⟨bound + 1, o, hrl, by omega⟩

/-- C2 counterexample — the batch built for an invocation of an unregistered
tool carries the error message in its `content`, but the `tool_result` dict
is constructed (lines 187–191) without any `is_error` key, so its `is_error`
field is absent rather than `true`. -/
theorem unknown_tool_result_lacks_error_flag :
    dispatchBatch [] [.toolUse "tu_9" "magic_wand" []] =
      some ([.toolResult "tu_9" (keyErrorMsg "magic_wand") none], []) ∧
    ((dispatchBatch [] [.toolUse "tu_9" "magic_wand" []]).map
        (fun pr => pr.1.map resultIsError)) = some [none] ∧
    (none : Option Bool) ≠ some true :=
  ⟨rfl, rfl, by decide⟩

/-- C2 (amended) — Tool-failure containment: an invocation of a tool absent
from `TOOL_FUNCTIONS`, or a handler `KeyError` on a missing input key, never
escapes the dispatch: it yields a `tool_result` whose content is the
identifying `Error: '…'` message (with no `is_error` flag set), the store is
untouched, and the loop proceeds to the next model call with the assistant
turn and the batch appended. -/
theorem tool_failure_containment (notes : NoteStore) (id name : String)
    (inp : ToolInput) (model : List Message → ModelResponse)
    (msgs : List Message) (fuel : Nat)
    (hunk : registeredTools.contains name = false)
    (hmodel : model msgs = ⟨[.toolUse id name inp], "tool_use"⟩) :
    dispatchBatch notes [.toolUse id name inp] =
      some ([.toolResult id (keyErrorMsg name) none], notes) ∧
    dispatchBatch notes [.toolUse id "search_web" []] =
      some ([.toolResult id (keyErrorMsg "query") none], notes) ∧
    runLoop model (fuel + 1) msgs notes =
      (runLoop model fuel
          (msgs ++ [⟨"assistant", .ofBlocks [.toolUse id name inp]⟩,
                    ⟨"user", .ofBlocks [.toolResult id (keyErrorMsg name) none]⟩]) notes).map
        (fun o => { o with modelCalls := o.modelCalls + 1, toolCalls := o.toolCalls + 1 }) := by
  have h1 : name ≠ "search_web" := by
    intro h; rw [h] at hunk; exact absurd hunk (by decide)
  have h2 : name ≠ "calculate" := by
    intro h; rw [h] at hunk; exact absurd hunk (by decide)
  have h3 : name ≠ "take_note" := by
    intro h; rw [h] at hunk; exact absurd hunk (by decide)
  have h4 : name ≠ "list_notes" := by
    intro h; rw [h] at hunk; exact absurd hunk (by decide)
  have hct : callTool notes name inp = some (keyErrorMsg name, notes) := by
    simp [callTool, h1, h2, h3, h4]
  have hd : dispatchBatch notes [(.toolUse id name inp : ContentBlock)] =
      some ([.toolResult id (keyErrorMsg name) none], notes) := by
    simp [dispatchBatch, hct]
  refine ⟨hd, rfl, ?_⟩
  simp [runLoop, hmodel, toolUseBlocks, isToolUseBlock, hd]

/-- Witness for C2 at a concrete unregistered tool name. -/
theorem tool_failure_containment_witness :
    (registeredTools.contains "magic_wand" = false) ∧
    (unknownToolStub (seedMessages "q") = ⟨[.toolUse "tu_9" "magic_wand" []], "tool_use"⟩) ∧
    (dispatchBatch [] [.toolUse "tu_9" "magic_wand" []] =
        some ([.toolResult "tu_9" (keyErrorMsg "magic_wand") none], []) ∧
      dispatchBatch [] [.toolUse "tu_9" "search_web" []] =
        some ([.toolResult "tu_9" (keyErrorMsg "query") none], []) ∧
      runLoop unknownToolStub 1 (seedMessages "q") [] =
        (runLoop unknownToolStub 0
            (seedMessages "q" ++
              [⟨"assistant", .ofBlocks [.toolUse "tu_9" "magic_wand" []]⟩,
               ⟨"user", .ofBlocks [.toolResult "tu_9" (keyErrorMsg "magic_wand") none]⟩]) []).map
          (fun o => { o with modelCalls := o.modelCalls + 1, toolCalls := o.toolCalls + 1 })) :=
  ⟨by decide, rfl,
    tool_failure_containment [] "tu_9" "magic_wand" [] unknownToolStub
      (seedMessages "q") 0 (by decide) rfl⟩

/-- C7 counterexample — "A" contains a character outside the allow-list (the
list holds only lowercase letters), yet `calculate` does not return the
invalid-characters message: the gate tests `expression.lower()`, which "a"
passes, and `eval` then raises `NameError`, caught into a different error
string.  So "an input containing a character outside the allowed set yields
`Error: Expression contains invalid characters.`" is false as stated. -/
theorem calculate_uppercase_bypasses_gate :
    ("A".toList.all (fun c => allowedChars.contains c)) = false ∧
    calculate "A" = some (evalErrMsg "A") ∧
    evalErrMsg "A" ≠ invalidCharsMsg :=
  ⟨by decide, by decide, by decide⟩

/-- C7 (amended) — Calculator round trip and rejection: `calculate "2**10"`
returns `"1024"`; every ASCII input whose lowercased form contains a
character outside the allow-list is rejected with
`Error: Expression contains invalid characters.` (an input disallowed only by
letter case instead passes the gate and any evaluation failure comes back as
an `Error evaluating expression: …` string, as the counterexample shows); and
`calculate` is a total function of its input — no exception escapes.  The
ASCII hypothesis keeps the statement within the range where the modelled
per-character lowering agrees with Python `str.lower`. -/
theorem calculate_round_trip (e : String)
    (hascii : e.toList.all (fun c => c.toNat < 128) = true)
    (hgate : ((pyLower e).toList.all (fun c => allowedChars.contains c)) = false) :
    calculate "2**10" = some "1024" ∧ calculate e = some invalidCharsMsg := by
  refine ⟨by decide, ?_⟩
  unfold calculate
  rw [hgate]
  rfl

/-- Witness for C7 at a concrete rejected input. -/
theorem calculate_round_trip_witness :
    ("2^3".toList.all (fun c => c.toNat < 128) = true) ∧
    (((pyLower "2^3").toList.all (fun c => allowedChars.contains c)) = false) ∧
    (calculate "2**10" = some "1024" ∧ calculate "2^3" = some invalidCharsMsg) :=
  ⟨by decide, by decide, calculate_round_trip "2^3" (by decide) (by decide)⟩

set_option maxRecDepth 8192 in
/-- C6 — Multi-tool batching: (i) a successful dispatch of the `tool_use`
blocks of a response yields exactly one result per invocation with ids
matching in order; (ii) one loop iteration on a tool-use response appends the
assistant turn verbatim followed by exactly one batch turn holding those
results, then continues as the loop restarted on the grown history — so the
whole batch exists before the next model call; (iii) concretely, a stub
returning one assistant turn with 3 invocations (`search_web`, `calculate`,
`take_note`) and then `end_turn` yields a run with exactly 2 model calls, 3
tool dispatches, and one 3-result batch turn. -/
theorem multi_tool_batching :
    (∀ (notes : NoteStore) (bs results : List ContentBlock) (notes2 : NoteStore),
        dispatchBatch notes (toolUseBlocks bs) = some (results, notes2) →
        results.length = (toolUseBlocks bs).length ∧ resultIds results = useIds bs) ∧
    (∀ (model : List Message → ModelResponse) (msgs : List Message)
        (notes notes2 : NoteStore) (fuel : Nat) (results : List ContentBlock),
        (model msgs).stop_reason ≠ "end_turn" →
        toolUseBlocks (model msgs).content ≠ [] →
        dispatchBatch notes (toolUseBlocks (model msgs).content) = some (results, notes2) →
        runLoop model (fuel + 1) msgs notes =
          (runLoop model fuel
              (msgs ++ [⟨"assistant", .ofBlocks (model msgs).content⟩,
                        ⟨"user", .ofBlocks results⟩]) notes2).map
            (fun o => { o with modelCalls := o.modelCalls + 1,
                               toolCalls := o.toolCalls +
                                 (toolUseBlocks (model msgs).content).length })) ∧
    run_agent batchStub "task" [] 5 = some
      ⟨"done", .modelDone,
       seedMessages "task" ++
         [⟨"assistant", .ofBlocks c6blocks⟩, ⟨"user", .ofBlocks c6results⟩],
       [("t", "c")], 2, 3⟩ := by
  refine ⟨?_, ?_, ?_⟩
  · intro notes bs results notes2 h
    obtain ⟨hids, hlen⟩ := dispatchBatch_ids _ notes results notes2 h
    rw [toolUseBlocks_idem] at hlen
    rw [useIds_toolUseBlocks] at hids
    exact ⟨hlen, hids⟩
  · intro model msgs notes notes2 fuel results hstop htub hdb
    have htub2 : (toolUseBlocks (model msgs).content).isEmpty = false := by
      cases he : toolUseBlocks (model msgs).content with
      | nil => exact absurd he htub
      | cons x xs => rfl
    simp [runLoop, hstop, htub2, hdb]
  · decide

set_option maxRecDepth 8192 in
/-- Witness for C6: the three-invocation scenario instantiates every
hypothesis of the batching theorem. -/
theorem multi_tool_batching_witness :
    (dispatchBatch [] (toolUseBlocks c6blocks) = some (c6results, [("t", "c")])) ∧
    (c6results.length = (toolUseBlocks c6blocks).length ∧
      resultIds c6results = useIds c6blocks) ∧
    ((batchStub (seedMessages "task")).stop_reason ≠ "end_turn") ∧
    (toolUseBlocks (batchStub (seedMessages "task")).content ≠ []) ∧
    runLoop batchStub 1 (seedMessages "task") [] =
      (runLoop batchStub 0
          (seedMessages "task" ++
            [⟨"assistant", .ofBlocks (batchStub (seedMessages "task")).content⟩,
             ⟨"user", .ofBlocks c6results⟩]) [("t", "c")]).map
        (fun o => { o with modelCalls := o.modelCalls + 1,
                           toolCalls := o.toolCalls +
                             (toolUseBlocks (batchStub (seedMessages "task")).content).length }) :=
  ⟨by decide,
   multi_tool_batching.1 [] c6blocks c6results [("t", "c")] (by decide),
   by decide, by decide,
   multi_tool_batching.2.1 batchStub (seedMessages "task") [] [("t", "c")] 0 c6results
     (by decide) (by decide) (by decide)⟩
